import Mathlib

/-!
Verification development for the PackageRadar extension's static
extraction and package-usage aggregation engine
(`src/extension.ts`).  The TypeScript source is shallowly embedded:
each JavaScript function becomes a total Lean function, filesystem and
network effects become explicit oracles (`FileSystem`, registry and
download-count functions), and JavaScript exceptions become
`Except String`.  JavaScript regular-expression matching is embedded
as explicit character-list scanners that implement the exact
leftmost/greedy semantics of the three concrete patterns the source
uses.
-/

/-! ## Character and string helpers -/

/-- The single-quote character (written via its code point). -/
def squoteChar : Char := Char.ofNat 39

/-- The double-quote character (written via its code point). -/
def dquoteChar : Char := Char.ofNat 34

/-- Tests membership in the regex character class consisting of the two
quote characters; `[^'"]` is its negation. -/
def isQuoteChar (c : Char) : Bool := c == squoteChar || c == dquoteChar

/-- Characters matched by the regex metacharacter `.`: any character
other than a line terminator. -/
def isDotChar (c : Char) : Bool := c != '\n' && c != '\r'

/-- Models JavaScript `s.startsWith(pre)`. -/
def strStartsWith (s pre : String) : Bool := pre.toList.isPrefixOf s.toList

/-- Models JavaScript `s.endsWith(suf)`. -/
def strEndsWith (s suf : String) : Bool := suf.toList.isSuffixOf s.toList

/-- Models JavaScript `pkg.split("/")[0]`: the characters before the
first `/` (the whole string when there is no `/`). -/
def baseName (pkg : String) : String :=
  String.mk (pkg.toList.takeWhile (fun c => c != '/'))

/-- Association-list lookup, modelling property access on a
string-keyed JavaScript object (first entry with the key wins). -/
def lookupVal {β : Type} (k : String) : List (String × β) → Option β
  | [] => none
  | (k2, v) :: rest => if k2 = k then some v else lookupVal k rest

/-! ## The import extractor (`analyzeFileImports`, lines 392-455)

The source runs three independent global regex scans over the raw file
content:

  1. `require\(['"]([^'"]+)['"]\)`
  2. `import .+ from ['"]([^'"]+)['"]` followed, per match, by a fresh
     `from ['"]([^'"]+)['"]` exec on the matched substring
  3. `import\(['"]([^'"]+)['"]\)`

and for every captured literal that does not start with `.` or `/`
adds `literal.split("/")[0]` to a `Set`.  The scanners below implement
the JavaScript engine's behaviour on these patterns: scan left to
right, at each index try the pattern (greedy `.+` backtracks from the
longest extent; a greedy `[^'"]+` run is forced to be maximal because
the character after any shorter run is a non-quote and the pattern
then demands a quote), and after a match resume right after it. -/

/-- Matches the tail `['"]([^'"]+)['"]\)` of patterns 1 and 3: a quote,
a nonempty run of non-quote characters, a quote (either kind — the
regex does not force it to match the opener), then `)`.  Returns the
captured run and the remainder of the input after the match. -/
def matchQuotedParen (s : List Char) : Option (List Char × List Char) :=
  match s with
  | [] => none
  | q :: rest =>
    if isQuoteChar q then
      let run := rest.takeWhile (fun c => !(isQuoteChar c))
      match rest.dropWhile (fun c => !(isQuoteChar c)) with
      | _ :: cp :: rest2 =>
        if run.isEmpty then none
        else if cp == ')' then some (run, rest2) else none
      | _ => none
    else none

/-- Global scan for `kw` followed by a quoted argument and `)`
(patterns 1 and 3, with `kw` being `require(` or `import(`).  The fuel
argument starts at the input length; every step advances at least one
character, so the fuel never runs out on the initial call. -/
def scanCallsF (kw : List Char) : Nat → List Char → List String
  | 0, _ => []
  | _ + 1, [] => []
  | fuel + 1, c :: rest =>
    if kw.isPrefixOf (c :: rest) then
      match matchQuotedParen ((c :: rest).drop kw.length) with
      | some (run, after) => String.mk run :: scanCallsF kw fuel after
      | none => scanCallsF kw fuel rest
    else scanCallsF kw fuel rest

/-- The literal `require(` that opens pattern 1. -/
def kwRequire : List Char := "require(".toList

/-- The literal `import(` that opens pattern 3. -/
def kwImport : List Char := "import(".toList

/-- The literal `import ` that opens pattern 2. -/
def kwImportSpace : List Char := "import ".toList

/-- The literal ` from ` inside pattern 2. -/
def kwFrom : List Char := " from ".toList

/-- The literal `from ` that opens the per-match inner exec of
pattern 2. -/
def kwFromInner : List Char := "from ".toList

/-- Captures of pattern 1 over the whole content, in match order.  The
source's per-match re-exec of the same pattern on the matched
substring returns exactly the substring's capture, so the captures are
collected directly. -/
def requireCaptures (content : String) : List String :=
  scanCallsF kwRequire content.toList.length content.toList

/-- Captures of pattern 3 over the whole content, in match order. -/
def dynamicImportCaptures (content : String) : List String :=
  scanCallsF kwImport content.toList.length content.toList

/-- Matches the tail ` from ['"]([^'"]+)['"]` of pattern 2 at the
current position.  Returns the consumed characters (needed to
reconstruct the matched substring) and the remainder after the
match. -/
def matchFromTail (s : List Char) : Option (List Char × List Char) :=
  if kwFrom.isPrefixOf s then
    match s.drop kwFrom.length with
    | [] => none
    | q :: rest =>
      if isQuoteChar q then
        let run := rest.takeWhile (fun c => !(isQuoteChar c))
        match rest.dropWhile (fun c => !(isQuoteChar c)) with
        | q2 :: rest2 =>
          if run.isEmpty then none
          else some ((kwFrom ++ q :: run) ++ [q2], rest2)
        | [] => none
      else none
  else none

/-- Backtracking search for the greedy `.+` of pattern 2: `d` counts
down from the longest extent the dot-class can reach, and the first
`d` (hence the longest) whose following text matches the ` from `
tail wins, exactly as the JavaScript engine backtracks. -/
def tryGreedy (body : List Char) : Nat → Option (Nat × List Char × List Char)
  | 0 => none
  | d + 1 =>
    match matchFromTail (body.drop (d + 1)) with
    | some (consumed, after) => some (d + 1, consumed, after)
    | none => tryGreedy body d

/-- Global scan for pattern 2, returning the matched substrings (the
source keeps whole matches and re-processes each with the inner
exec). -/
def scanImportFromF : Nat → List Char → List (List Char)
  | 0, _ => []
  | _ + 1, [] => []
  | fuel + 1, c :: rest =>
    if kwImportSpace.isPrefixOf (c :: rest) then
      let body := (c :: rest).drop kwImportSpace.length
      match tryGreedy body (body.takeWhile isDotChar).length with
      | some (d, consumed, after) =>
        (kwImportSpace ++ (body.take d ++ consumed)) :: scanImportFromF fuel after
      | none => scanImportFromF fuel rest
    else scanImportFromF fuel rest

/-- Matches `from ['"]([^'"]+)['"]` at the current position (the inner
exec's pattern has no leading space), returning the capture. -/
def matchInnerFrom (s : List Char) : Option (List Char) :=
  if kwFromInner.isPrefixOf s then
    match s.drop kwFromInner.length with
    | [] => none
    | q :: rest =>
      if isQuoteChar q then
        let run := rest.takeWhile (fun c => !(isQuoteChar c))
        match rest.dropWhile (fun c => !(isQuoteChar c)) with
        | _ :: _ => if run.isEmpty then none else some run
        | [] => none
      else none
  else none

/-- Leftmost match of the inner exec `from ['"]([^'"]+)['"]` over a
matched substring, as `regex.exec` with `lastIndex` 0 computes it. -/
def execInnerFrom : List Char → Option (List Char)
  | [] => none
  | c :: rest =>
    match matchInnerFrom (c :: rest) with
    | some run => some run
    | none => execInnerFrom rest

/-- Captures of pattern 2: for each outer match, the capture of the
first inner `from ['"]...['"]` occurrence inside it (matches whose
inner exec fails are skipped, as the source's `if (regexResult)`
guard does). -/
def importFromCaptures (content : String) : List String :=
  (scanImportFromF content.toList.length content.toList).filterMap
    (fun m => (execInnerFrom m).map String.mk)

/-- Models `Set.add` on the insertion-ordered `imports` set: append
the element unless already present. -/
def insertUnique (imports : List String) (x : String) : List String :=
  if x ∈ imports then imports else imports ++ [x]

/-- The shared per-capture processing of all three scans (lines
403-411, 420-428, 437-445): discard literals starting with `.` or `/`,
otherwise add the base package name `pkg.split("/")[0]` to the set. -/
def processCaptures (imports : List String) (captures : List String) : List String :=
  captures.foldl (fun imports pkg =>
    if !(strStartsWith pkg ".") && !(strStartsWith pkg "/") then
      insertUnique imports (baseName pkg)
    else imports) imports

/-- The import extractor (lines 392-455), as a pure function of the
file content (the source reads the content from disk first; that read
is modelled at each call site, where its exceptions are caught). -/
def analyzeFileImports (content : String) : List String :=
  let imports := processCaptures [] (requireCaptures content)
  let imports := processCaptures imports (importFromCaptures content)
  processCaptures imports (dynamicImportCaptures content)

/-- All captured specifier literals of the three scans, before the
relative-path filter and base-name normalization. -/
def allCaptures (content : String) : List String :=
  requireCaptures content ++ importFromCaptures content ++ dynamicImportCaptures content

/-! ## The tree walker (`analyzeProjectStructure`, lines 280-389) -/

/-- A node of the source's `structure` array: tagged `directory` (with
children) or `file`, carrying name and absolute path. -/
inductive StructureNode where
  | directory (name : String) (path : String) (children : List StructureNode)
  | file (name : String) (path : String)

/-- The `ProjectAnalysis` record built by the walker.  `tree` is the
source's `structure` field (renamed because `structure` is a Lean
keyword). -/
structure ProjectAnalysis where
  tree : List StructureNode
  packageImports : List (String × List String)
  suggestedAnalysis : List String

/-- The initial `analysisResult` value (lines 293-297). -/
def emptyAnalysis : ProjectAnalysis :=
  { tree := [], packageImports := [], suggestedAnalysis := [] }

/-- Filesystem oracle.  Each field models the corresponding `fs` call:
a `Except.error` value models the call throwing. -/
structure FileSystem where
  existsSync : String → Bool
  readdirSync : String → Except String (List String)
  statIsDirectory : String → Except String Bool
  readFileSync : String → Except String String

/-- Models `path.join(targetPath, entry)` for the plain
directory-plus-name joins the walker performs. -/
def pathJoin (targetPath entry : String) : String := targetPath ++ "/" ++ entry

/-- Models the source's `errorString` helper (lines 7-12); thrown
values are embedded as their message strings. -/
def errorString (e : String) : String := e

/-- The entry-partition loop (lines 304-335): stat each entry inside a
try/catch (a failing stat skips the entry), keep directories not named
`node_modules`/`.git` and not starting with `.`, and keep files whose
name ends in one of the four scanned extensions. -/
def partitionEntries (fs : FileSystem) (targetPath : String)
    (allEntries : List String) : List String × List String :=
  allEntries.foldl (fun acc entry =>
    let (directories, files) := acc
    match fs.statIsDirectory (pathJoin targetPath entry) with
    | Except.error _ => (directories, files)
    | Except.ok true =>
      if entry != "node_modules" && entry != ".git" && !(strStartsWith entry ".") then
        (directories ++ [entry], files)
      else (directories, files)
    | Except.ok false =>
      if strEndsWith entry ".js" || strEndsWith entry ".jsx"
          || strEndsWith entry ".ts" || strEndsWith entry ".tsx" then
        (directories, files ++ [entry])
      else (directories, files)) ([], [])

/-- Models `analysisResult.packageImports[fullPath] = imports`:
association-list single-key assignment (update in place when present,
append otherwise). -/
def setKey (m : List (String × List String)) (k : String) (v : List String) :
    List (String × List String) :=
  if (lookupVal k m).isNone then m ++ [(k, v)]
  else m.map (fun kv => if kv.1 = k then (k, v) else kv)

/-- Models `Object.assign(target, source)` on string-keyed records as
association lists: keys of `source` overwrite those of `target` in
place, new keys append in source order.  (In the walker the key sets
are disjoint — paths are unique across the tree — so this is a plain
union.) -/
def objectAssign (target source : List (String × List String)) :
    List (String × List String) :=
  target.map (fun kv => (kv.1, (lookupVal kv.1 source).getD kv.2))
  ++ source.filter (fun kv => (lookupVal kv.1 target).isNone)

/-- The per-file step of the walker's file loop (lines 362-386): push
the file node, then analyze its imports inside a try/catch (a failing
read skips the file), record non-empty import sets under the file's
path, and add the path to `suggestedAnalysis` when the distinct-import
count exceeds 3. -/
def processFile (fs : FileSystem) (targetPath : String)
    (acc : ProjectAnalysis) (file : String) : ProjectAnalysis :=
  let fullPath := pathJoin targetPath file
  let acc := { acc with tree := acc.tree ++ [StructureNode.file file fullPath] }
  match fs.readFileSync fullPath with
  | Except.error _ => acc
  | Except.ok content =>
    let imports := analyzeFileImports content
    if imports.length > 0 then
      let acc := { acc with packageImports := setKey acc.packageImports fullPath imports }
      if imports.length > 3 then
        { acc with suggestedAnalysis := acc.suggestedAnalysis ++ [fullPath] }
      else acc
    else acc

/-- The walker (lines 280-389).  A missing target returns the empty
analysis; `readdirSync` is not guarded by any try/catch, so its
failure — and any exception escaping a recursive call inside the
directory loop — propagates (`Except.error`), aborting the whole walk.
The fuel argument only bounds recursion depth so the embedding is
total; theorems instantiate it above the depth of the tree at hand. -/
def analyzeProjectStructure (fs : FileSystem) : Nat → String → Except String ProjectAnalysis
  | 0, _ => Except.error "maximum recursion depth exceeded"
  | fuel + 1, targetPath =>
    if !(fs.existsSync targetPath) then Except.ok emptyAnalysis
    else
      match fs.readdirSync targetPath with
      | Except.error e => Except.error e
      | Except.ok allEntries =>
        let (directories, files) := partitionEntries fs targetPath allEntries
        match directories.foldlM (fun acc dir =>
            match analyzeProjectStructure fs fuel (pathJoin targetPath dir) with
            | Except.error e => Except.error e
            | Except.ok subAnalysis => Except.ok
                { tree := acc.tree ++
                    [StructureNode.directory dir (pathJoin targetPath dir) subAnalysis.tree],
                  packageImports := objectAssign acc.packageImports subAnalysis.packageImports,
                  suggestedAnalysis := acc.suggestedAnalysis ++ subAnalysis.suggestedAnalysis })
            emptyAnalysis with
        | Except.error e => Except.error e
        | Except.ok acc => Except.ok (files.foldl (processFile fs targetPath) acc)

/-! ## The usage aggregator (`extractUniquePackages`, lines 458-466,
and the `packageUsage` fold of `generateAnalysisHTML`, lines 589-605) -/

/-- The unique-package set (lines 458-466): fold every file's import
list into an insertion-ordered set. -/
def extractUniquePackages (packageImports : List (String × List String)) : List String :=
  packageImports.foldl (fun acc kv => kv.2.foldl insertUnique acc) []

/-- One step of the `packageUsage` fold (lines 594-603): ensure the
package has an entry, then increment its count and push the file. -/
def bumpUsage (file : String) (usage : List (String × Nat × List String))
    (pkg : String) : List (String × Nat × List String) :=
  match lookupVal pkg usage with
  | none => usage ++ [(pkg, 1, [file])]
  | some cv => usage.map (fun kv =>
      if kv.1 = pkg then (pkg, cv.1 + 1, cv.2 ++ [file]) else kv)

/-- The `packageUsage` index (lines 591-605): for every file entry,
for every package it imports, bump that package's count and file
list. -/
def computePackageUsage (packageImports : List (String × List String)) :
    List (String × Nat × List String) :=
  packageImports.foldl (fun usage fi => fi.2.foldl (bumpUsage fi.1) usage) []

/-- The count stored for a package in a usage index (0 when absent). -/
def countOf (usage : List (String × Nat × List String)) (p : String) : Nat :=
  match lookupVal p usage with
  | some cv => cv.1
  | none => 0

/-- Whether a package has an entry in a usage index. -/
def presentOf (usage : List (String × Nat × List String)) (p : String) : Bool :=
  (lookupVal p usage).isSome

/-- Number of occurrences of `p` in a list of package names. -/
def occCount (p : String) : List String → Nat
  | [] => 0
  | q :: t => (if q = p then 1 else 0) + occCount p t

/-- Total number of occurrences of `p` across all files' import
lists. -/
def totalCount (p : String) : List (String × List String) → Nat
  | [] => 0
  | fi :: t => occCount p fi.2 + totalCount p t

/-! ## The metadata fetcher (`fetchNpmMetadata`, lines 468-549) -/

/-- The registry JSON body fields the source reads.  `Option` marks a
field that may be absent; `time` and `versionsDependencies` model the
`time` and `versions[v].dependencies` objects as key-indexed maps (for
dependencies only the names matter to the source's consumers). -/
structure NpmData where
  distTagsLatest : Option String
  description : Option String
  license : Option String
  homepage : Option String
  repositoryUrl : Option String
  maintainersCount : Option Nat
  time : List (String × String)
  versionsDependencies : List (String × List String)

/-- A value stored in `packageData`.  The JavaScript records are
heterogeneous, so every field a record may or may not carry is an
`Option`; `none` means the field is absent from the object. -/
structure PackageRecord where
  name : String
  description : String
  version : String
  license : Option String
  homepage : Option String
  repository : Option String
  maintainers : Option Nat
  lastPublished : Option String
  dependencies : Option (List String)
  weeklyDownloads : Option Nat
  error : Option String
  alternatives : Option (List String)
deriving DecidableEq

/-- Models the JavaScript expression `x || dflt` on an optional string
field: both `undefined` and the empty string are falsy. -/
def jsOrString (x : Option String) (dflt : String) : String :=
  match x with
  | some s => if s = "" then dflt else s
  | none => dflt

/-- The secondary download-count request (lines 500-511): its own
try/catch absorbs every failure, and a non-200 status or missing
`downloads` field leaves the count at 0. -/
def fetchDownloads (dl : String → Except String (Nat × Option Nat))
    (packageName : String) : Nat :=
  match dl packageName with
  | Except.ok (status, downloads) => if status = 200 then downloads.getD 0 else 0
  | Except.error _ => 0

/-- The per-package fetch (lines 475-525).  A thrown primary request
stores the degraded record of lines 517-523; a 200 response stores the
full record of lines 486-498 (with `weeklyDownloads` updated by the
secondary request); a non-200 response that does not throw stores
nothing at all (the source has no else-branch for it). -/
def fetchOne (reg : String → Except String (Nat × NpmData))
    (dl : String → Except String (Nat × Option Nat))
    (packageName : String) : Option PackageRecord :=
  match reg packageName with
  | Except.ok (status, data) =>
    if status = 200 then
      let latestVersion := data.distTagsLatest
      some {
        name := packageName,
        description := jsOrString data.description "",
        version := jsOrString latestVersion "",
        license := some (jsOrString data.license "Unknown"),
        homepage := some (jsOrString data.homepage ""),
        repository := some (jsOrString data.repositoryUrl ""),
        maintainers := some (data.maintainersCount.getD 0),
        lastPublished := some
          (jsOrString (latestVersion.bind (fun v => lookupVal v data.time)) ""),
        dependencies := some
          ((latestVersion.bind (fun v => lookupVal v data.versionsDependencies)).getD []),
        weeklyDownloads := some (fetchDownloads dl packageName),
        error := none,
        alternatives := some [] }
    else none
  | Except.error e =>
    some {
      name := packageName,
      description := "Could not fetch package data",
      version := "",
      license := none,
      homepage := none,
      repository := none,
      maintainers := none,
      lastPublished := none,
      dependencies := none,
      weeklyDownloads := none,
      error := some (errorString e),
      alternatives := none }

/-- The static alternatives table (lines 530-545). -/
def assignAlternatives (packageName : String) : List String :=
  if packageName = "moment" then ["date-fns", "dayjs", "luxon"]
  else if packageName = "lodash" ∨ packageName = "underscore" then ["lodash-es", "ramda"]
  else if packageName = "request" then ["axios", "node-fetch", "got"]
  else if packageName = "jquery" then ["cash-dom", "umbrella"]
  else []

/-- The whole fetcher (lines 469-549).  The per-package fetches are
independent (each writes only its own key), so the concurrent
`Promise.all` fan-out is embedded as a pointwise map over the names;
after all fetches settle, the enrichment loop assigns an alternatives
list to every key of the result, degraded records included. -/
def fetchNpmMetadata (packageNames : List String)
    (reg : String → Except String (Nat × NpmData))
    (dl : String → Except String (Nat × Option Nat)) :
    List (String × PackageRecord) :=
  let packageData := packageNames.filterMap (fun packageName =>
    (fetchOne reg dl packageName).map (fun record => (packageName, record)))
  packageData.map (fun entry =>
    (entry.1, { entry.2 with alternatives := some (assignAlternatives entry.1) }))

/-! ## Command entry points (`activate`, lines 14-278) -/

/-- Outcome of the analyze-project command (lines 98-171), up to the
point where the result is either displayed or a message shown. -/
inductive CommandOutcome where
  | errorMessage (msg : String)
  | noPackagesMessage
  | analysisDisplayed (uniquePackages : List String)
deriving DecidableEq

/-- The analyze-project command path (lines 121-163): walk the target,
extract unique packages, and short-circuit with the
"No npm packages found in the project" message when the set is empty;
a thrown walk reaches the outer catch (lines 165-169). -/
def runAnalyzeProject (fs : FileSystem) (fuel : Nat) (targetPath : String) :
    CommandOutcome :=
  match analyzeProjectStructure fs fuel targetPath with
  | Except.error e =>
    CommandOutcome.errorMessage ("Error analyzing project: " ++ errorString e)
  | Except.ok analysis =>
    let uniquePackages := extractUniquePackages analysis.packageImports
    if uniquePackages.length = 0 then CommandOutcome.noPackagesMessage
    else CommandOutcome.analysisDisplayed uniquePackages

/-- Models `path.extname`: the suffix of the basename from its last
dot, or the empty string when the basename has no dot or only a
leading one. -/
def extname (p : String) : String :=
  let base := (p.toList.reverse.takeWhile (fun c => c != '/')).reverse
  let revBase := base.reverse
  let afterDot := revBase.takeWhile (fun c => c != '.')
  match revBase.dropWhile (fun c => c != '.') with
  | [] => ""
  | _ :: before => if before.isEmpty then "" else String.mk ('.' :: afterDot.reverse)

/-- Outcome of the analyze-current-file command (lines 19-95). -/
inductive CurrentFileOutcome where
  | notJsTs
  | errorMessage (msg : String)
  | noPackages
  | displayed (analysis : ProjectAnalysis)

/-- The analyze-current-file command path (lines 29-87): reject files
whose extension is not in the supported set, report when no packages
were found, and otherwise display an analysis whose
`suggestedAnalysis` is exactly `[filePath]` (lines 74-81). -/
def runAnalyzeCurrentFile (fs : FileSystem) (filePath : String) : CurrentFileOutcome :=
  if !([".js", ".jsx", ".ts", ".tsx"].contains (extname filePath)) then
    CurrentFileOutcome.notJsTs
  else
    match fs.readFileSync filePath with
    | Except.error e =>
      CurrentFileOutcome.errorMessage ("Error analyzing current file: " ++ errorString e)
    | Except.ok content =>
      let imports := analyzeFileImports content
      if imports.length = 0 then CurrentFileOutcome.noPackages
      else CurrentFileOutcome.displayed
        { tree := [], packageImports := [(filePath, imports)],
          suggestedAnalysis := [filePath] }

/-- The import-collection loop of the analyze-selected-files command
(lines 219-225): one unguarded `analyzeFileImports` call per selected
file (a thrown read aborts the whole command via the outer catch), and
only files with at least one package get an entry. -/
def buildSelectedImports (fs : FileSystem) :
    List String → List (String × List String) →
    Except String (List (String × List String))
  | [], acc => Except.ok acc
  | p :: rest, acc =>
    match fs.readFileSync p with
    | Except.error e => Except.error e
    | Except.ok content =>
      let imports := analyzeFileImports content
      if imports.length > 0 then buildSelectedImports fs rest (setKey acc p imports)
      else buildSelectedImports fs rest acc

/-- The analysis record the analyze-selected-files command builds
(lines 252-257): empty tree, the collected imports, and
`suggestedAnalysis = Object.keys(packageImports)`. -/
def buildSelectedAnalysis (fs : FileSystem) (paths : List String) :
    Except String ProjectAnalysis :=
  match buildSelectedImports fs paths [] with
  | Except.error e => Except.error e
  | Except.ok packageImports =>
    Except.ok { tree := [], packageImports := packageImports,
                suggestedAnalysis := packageImports.map Prod.fst }

/-! ## Concrete fixtures -/

/-- A file text containing the three reference forms
`require("pkg")`, `import x from "pkg/sub"` and
`import("@scope/pkg")`. -/
def c1Text : String :=
  "require(\"pkg\")\nimport x from \"pkg/sub\"\nimport(\"@scope/pkg\")"

/-- A file text whose captured specifiers all start with `.` or
`/`. -/
def c6Text : String :=
  "require(\"./local\")\nimport y from \"/abs/mod\"\nimport(\"../up\")"

/-- A file text importing four distinct packages. -/
def fourImportText : String :=
  "require(\"a\")\nrequire(\"b\")\nrequire(\"c\")\nrequire(\"d\")"

/-- A file text importing exactly three distinct packages. -/
def threeImportText : String :=
  "require(\"a\")\nrequire(\"b\")\nrequire(\"c\")"

/-- A filesystem with one unreadable entry (`bad`, whose stat throws),
one excluded directory pair, one readable subdirectory, one file with
no scanned extension, one unreadable file, and one readable file. -/
def fsWalk : FileSystem where
  existsSync := fun p => p == "/proj" || p == "/proj/sub"
  readdirSync := fun p =>
    if p == "/proj" then
      Except.ok ["bad", ".git", "node_modules", "sub", "noext", "unreadable.ts", "good.ts"]
    else if p == "/proj/sub" then Except.ok ["inner.ts"]
    else Except.error "ENOENT: no such file or directory"
  statIsDirectory := fun p =>
    if p == "/proj/bad" then Except.error "EACCES: permission denied"
    else if p == "/proj/.git" || p == "/proj/node_modules" || p == "/proj/sub" then
      Except.ok true
    else Except.ok false
  readFileSync := fun p =>
    if p == "/proj/good.ts" then Except.ok "require(\"lodash\")"
    else if p == "/proj/sub/inner.ts" then Except.ok "require(\"axios\")"
    else Except.error "EACCES: permission denied"

/-- A filesystem whose root holds a subdirectory that exists and stats
as a directory but whose listing throws, next to a perfectly readable
sibling file. -/
def fsAbort : FileSystem where
  existsSync := fun p => p == "/root" || p == "/root/sub" || p == "/root/good.ts"
  readdirSync := fun p =>
    if p == "/root" then Except.ok ["sub", "good.ts"]
    else Except.error "EACCES: permission denied"
  statIsDirectory := fun p =>
    if p == "/root/sub" then Except.ok true else Except.ok false
  readFileSync := fun p =>
    if p == "/root/good.ts" then Except.ok "require(\"lodash\")"
    else Except.error "ENOENT: no such file or directory"

/-- A filesystem with one existing, readable, empty directory
(`/empty`) and nothing else; `/missing` does not exist. -/
def fsC9 : FileSystem where
  existsSync := fun p => p == "/empty"
  readdirSync := fun p =>
    if p == "/empty" then Except.ok []
    else Except.error "ENOENT: no such file or directory"
  statIsDirectory := fun _ => Except.error "ENOENT: no such file or directory"
  readFileSync := fun _ => Except.error "ENOENT: no such file or directory"

/-- A filesystem serving a four-import file and a three-import
file. -/
def fsThreshold : FileSystem where
  existsSync := fun p => p == "/p"
  readdirSync := fun p =>
    if p == "/p" then Except.ok ["four.ts", "three.ts"]
    else Except.error "ENOENT: no such file or directory"
  statIsDirectory := fun _ => Except.ok false
  readFileSync := fun p =>
    if p == "/p/four.ts" then Except.ok fourImportText
    else if p == "/p/three.ts" then Except.ok threeImportText
    else Except.error "ENOENT: no such file or directory"

/-- A filesystem serving two one-import source files. -/
def fsEntry : FileSystem where
  existsSync := fun p => p == "/a.ts" || p == "/b.ts"
  readdirSync := fun _ => Except.error "ENOTDIR: not a directory"
  statIsDirectory := fun _ => Except.ok false
  readFileSync := fun p =>
    if p == "/a.ts" then Except.ok "require(\"react\")"
    else if p == "/b.ts" then Except.ok "require(\"vue\")"
    else Except.error "ENOENT: no such file or directory"

/-- A registry oracle on which every primary request throws. -/
def regFail : String → Except String (Nat × NpmData) :=
  fun _ => Except.error "ECONNREFUSED"

/-- A download-count oracle that always answers 200 with a count. -/
def dlOk : String → Except String (Nat × Option Nat) :=
  fun _ => Except.ok (200, some 12345)

/-- A download-count oracle that always throws. -/
def dlFail : String → Except String (Nat × Option Nat) :=
  fun _ => Except.error "ETIMEDOUT"

/-- A two-file import map. -/
def aggMapA : List (String × List String) :=
  [("/src/a.ts", ["react"]), ("/src/b.ts", ["react", "vue"])]

/-- The same import map with its two entries swapped. -/
def aggMapB : List (String × List String) :=
  [("/src/b.ts", ["react", "vue"]), ("/src/a.ts", ["react"])]

/-- The enriched degraded record the fetcher stores for "moment" when
its primary request throws `ECONNREFUSED`. -/
def degradedMoment : PackageRecord :=
  { name := "moment", description := "Could not fetch package data",
    version := "", license := none, homepage := none, repository := none,
    maintainers := none, lastPublished := none, dependencies := none,
    weeklyDownloads := none, error := some "ECONNREFUSED",
    alternatives := some ["date-fns", "dayjs", "luxon"] }

/-! ## Extractor theorems (claims C1, C6, C7) -/

/-- Unfolding lemma: one step of the per-capture processing loop. -/
theorem processCaptures_cons (imports : List String) (pkg : String) (t : List String) :
    processCaptures imports (pkg :: t) =
    processCaptures (if !(strStartsWith pkg ".") && !(strStartsWith pkg "/") then
      insertUnique imports (baseName pkg) else imports) t := rfl

/-- Inserting into the deduplicated import set preserves
deduplication. -/
theorem insertUnique_nodup (l : List String) (x : String) (h : l.Nodup) :
    (insertUnique l x).Nodup := by
  unfold insertUnique
  split
  · exact h
  · rename_i hx
    simp [List.nodup_append, h, hx]

/-- Processing any capture list preserves deduplication of the import
set. -/
theorem processCaptures_nodup : ∀ (captures imports : List String),
    imports.Nodup → (processCaptures imports captures).Nodup
  | [], _, h => h
  | pkg :: t, imports, h => by
    rw [processCaptures_cons]
    split
    · exact processCaptures_nodup t _ (insertUnique_nodup _ _ h)
    · exact processCaptures_nodup t _ h

/-- C1 counterexample: on the file text containing `require("pkg")`,
`import x from "pkg/sub"` and `import("@scope/pkg")`, the extractor
does not return the set containing `@scope/pkg`; the scoped specifier
is not kept intact. -/
theorem scoped_import_not_kept_intact :
    analyzeFileImports c1Text ≠ ["pkg", "@scope/pkg"]
    ∧ ¬ "@scope/pkg" ∈ analyzeFileImports c1Text := by
  constructor
  · decide
  · decide

/-- C1 (amended): for the file text containing `require("pkg")`,
`import x from "pkg/sub"` and `import("@scope/pkg")`, the extractor
returns exactly the set containing "pkg" and "@scope": a sub-path
specifier collapses to its base package name, and a scoped specifier
is likewise truncated at its first `/` (the source's
`pkg.split("/")[0]`), yielding "@scope" rather than "@scope/pkg". -/
theorem extraction_collapses_scoped_to_first_segment :
    analyzeFileImports c1Text = ["pkg", "@scope"] := by decide

/-- Captures that all start with `.` or `/` leave the import set
unchanged. -/
theorem processCaptures_skip : ∀ (captures : List String),
    (∀ p ∈ captures, (strStartsWith p "." || strStartsWith p "/") = true) →
    ∀ imports, processCaptures imports captures = imports
  | [], _, _ => rfl
  | pkg :: t, h, imports => by
    rw [processCaptures_cons]
    have hp := h pkg (List.mem_cons_self pkg t)
    have hfalse : (!(strStartsWith pkg ".") && !(strStartsWith pkg "/")) = false := by
      cases hb : strStartsWith pkg "." <;> simp_all
    simp only [hfalse, Bool.false_eq_true, if_false]
    exact processCaptures_skip t (fun p hp2 => h p (List.mem_cons_of_mem _ hp2)) imports

/-- C6: for every file text in which every captured import/require
specifier starts with `.` or `/`, the import extractor returns the
empty set — relative and absolute path specifiers are always discarded
and never appear in the result. -/
theorem relative_specifiers_yield_empty (content : String)
    (h : ∀ p ∈ allCaptures content, (strStartsWith p "." || strStartsWith p "/") = true) :
    analyzeFileImports content = [] := by
  have hr : ∀ p ∈ requireCaptures content,
      (strStartsWith p "." || strStartsWith p "/") = true := by
    intro p hp
    exact h p (by simp [allCaptures, hp])
  have hi : ∀ p ∈ importFromCaptures content,
      (strStartsWith p "." || strStartsWith p "/") = true := by
    intro p hp
    exact h p (by simp [allCaptures, hp])
  have hd : ∀ p ∈ dynamicImportCaptures content,
      (strStartsWith p "." || strStartsWith p "/") = true := by
    intro p hp
    exact h p (by simp [allCaptures, hp])
  show processCaptures (processCaptures (processCaptures [] (requireCaptures content))
    (importFromCaptures content)) (dynamicImportCaptures content) = []
  rw [processCaptures_skip _ hr, processCaptures_skip _ hi, processCaptures_skip _ hd]

/-- Witness for C6: a file text whose specifiers are `./local`,
`/abs/mod` and `../up` extracts to the empty set. -/
theorem relative_specifiers_yield_empty_witness : analyzeFileImports c6Text = [] :=
  relative_specifiers_yield_empty c6Text (by decide)

/-- C7: the import extractor is total over its text input — it is a
total Lean function of the raw content, unmatched constructs simply
produce no captures, and the returned list is a genuine set (no
duplicates) for every input string. -/
theorem extractor_total_returns_set (content : String) :
    (analyzeFileImports content).Nodup := by
  unfold analyzeFileImports
  exact processCaptures_nodup _ _
    (processCaptures_nodup _ _ (processCaptures_nodup _ _ List.nodup_nil))

/-! ## Tree-walker theorems (claims C3, C5, C9) -/

/-- C3 counterexample: on `fsAbort` the root holds a subdirectory
whose own listing throws next to a readable sibling file, and the
whole walk aborts with that exception — the unguarded recursive
`readdirSync` failure propagates, so the sibling is never
processed. -/
theorem walk_aborts_on_unreadable_subdir_listing :
    analyzeProjectStructure fsAbort 5 "/root" =
      Except.error "EACCES: permission denied" := rfl

/-- C3 (amended): the walk skips an entry whose stat throws and a file
whose contents cannot be read, still processing their siblings, and a
nonexistent root yields the empty analysis; but a directory whose own
listing fails (at any depth) throws and aborts the entire walk — shown
on `fsWalk`, where the unstattable `bad`, the excluded `.git` and
`node_modules`, the extensionless `noext` and the unreadable
`unreadable.ts` are all skipped while `sub/inner.ts` and `good.ts` are
analyzed. -/
theorem walk_skip_behavior :
    analyzeProjectStructure fsWalk 5 "/proj" = Except.ok
      { tree := [StructureNode.directory "sub" "/proj/sub"
                   [StructureNode.file "inner.ts" "/proj/sub/inner.ts"],
                 StructureNode.file "unreadable.ts" "/proj/unreadable.ts",
                 StructureNode.file "good.ts" "/proj/good.ts"],
        packageImports := [("/proj/sub/inner.ts", ["axios"]),
                           ("/proj/good.ts", ["lodash"])],
        suggestedAnalysis := [] }
    ∧ analyzeProjectStructure fsWalk 5 "/missing" = Except.ok emptyAnalysis :=
  ⟨rfl, rfl⟩

/-- C9 counterexample: analyzing the nonexistent path `/missing`
produces exactly the same outcome as analyzing the existing empty
directory `/empty` — the generic no-packages information message, not
a descriptive invalid-input signal, so the two cases are
indistinguishable to the caller. -/
theorem missing_path_same_as_empty_scan :
    runAnalyzeProject fsC9 2 "/missing" = CommandOutcome.noPackagesMessage
    ∧ runAnalyzeProject fsC9 2 "/empty" = CommandOutcome.noPackagesMessage :=
  ⟨rfl, rfl⟩

/-- C9 (amended): when analysis is requested on a target path that
does not exist, the walk returns the empty analysis and the command
reports the same "No npm packages found in the project" outcome as a
successful scan that found no packages; no metadata fetch or other
partial work happens, but the caller receives no descriptive
invalid-input message distinguishing the two cases. -/
theorem missing_path_reports_no_packages (fs : FileSystem) (fuel : Nat)
    (targetPath : String) (h : fs.existsSync targetPath = false) :
    runAnalyzeProject fs (fuel + 1) targetPath = CommandOutcome.noPackagesMessage := by
  simp [runAnalyzeProject, analyzeProjectStructure, h, emptyAnalysis,
    extractUniquePackages]

/-- Witness for C9 (amended): the nonexistent path `/missing` on
`fsC9`. -/
theorem missing_path_reports_no_packages_witness :
    runAnalyzeProject fsC9 1 "/missing" = CommandOutcome.noPackagesMessage :=
  missing_path_reports_no_packages fsC9 0 "/missing" rfl

/-- C5: in the walker's per-file step, a readable file whose
distinct-package count exceeds the fixed constant 3 has its path
appended to the suggested-deep-dive list, and a file whose count is 3
or fewer does not add its path. -/
theorem deep_dive_threshold (fs : FileSystem) (targetPath file : String)
    (acc : ProjectAnalysis) (content : String)
    (h : fs.readFileSync (pathJoin targetPath file) = Except.ok content) :
    ((analyzeFileImports content).length > 3 →
      pathJoin targetPath file ∈ (processFile fs targetPath acc file).suggestedAnalysis)
    ∧ ((analyzeFileImports content).length ≤ 3 →
      ¬ pathJoin targetPath file ∈ acc.suggestedAnalysis →
      ¬ pathJoin targetPath file ∈ (processFile fs targetPath acc file).suggestedAnalysis) := by
  constructor
  · intro h4
    have h0 : (analyzeFileImports content).length > 0 := by omega
    simp [processFile, h, h0, h4]
  · intro h3 hnot
    by_cases h0 : (analyzeFileImports content).length > 0
    · have h4 : ¬ (analyzeFileImports content).length > 3 := by omega
      simp [processFile, h, h0, h4, hnot]
    · simp [processFile, h, h0, hnot]

/-- Witness for C5: a four-import file lands on the deep-dive list and
a three-import file does not. -/
theorem deep_dive_threshold_witness :
    pathJoin "/p" "four.ts" ∈
      (processFile fsThreshold "/p" emptyAnalysis "four.ts").suggestedAnalysis
    ∧ ¬ pathJoin "/p" "three.ts" ∈
      (processFile fsThreshold "/p" emptyAnalysis "three.ts").suggestedAnalysis := by
  constructor
  · exact (deep_dive_threshold fsThreshold "/p" "four.ts" emptyAnalysis
      fourImportText rfl).1 (by decide)
  · exact (deep_dive_threshold fsThreshold "/p" "three.ts" emptyAnalysis
      threeImportText rfl).2 (by decide) (by decide)

/-! ## Aggregation theorems (claim C8) -/

/-- Looking up in a list extended by one trailing entry. -/
theorem lookupVal_append {β : Type} (l : List (String × β)) (k p : String) (v : β) :
    lookupVal p (l ++ [(k, v)]) =
    (match lookupVal p l with
     | some w => some w
     | none => if k = p then some v else none) := by
  induction l with
  | nil => rfl
  | cons hd t ih =>
    obtain ⟨k2, w⟩ := hd
    by_cases h : k2 = p <;> simp [lookupVal, h, ih]

/-- Unfolding lemma for `lookupVal` on a cons cell. -/
theorem lookupVal_cons {β : Type} (k2 : String) (v : β) (rest : List (String × β))
    (p : String) :
    lookupVal p ((k2, v) :: rest) = if k2 = p then some v else lookupVal p rest := rfl

/-- The in-place count/files update of `bumpUsage` leaves every other
key's binding unchanged. -/
theorem lookupVal_map_update_ne (usage : List (String × Nat × List String))
    (pkg p : String) (hne : pkg ≠ p) (c : Nat) (fls : List String) (file : String) :
    lookupVal p (usage.map (fun kv =>
      if kv.1 = pkg then (pkg, c + 1, fls ++ [file]) else kv)) = lookupVal p usage := by
  induction usage with
  | nil => rfl
  | cons hd t ih =>
    obtain ⟨k2, w⟩ := hd
    rw [List.map_cons]
    by_cases h2 : k2 = pkg
    · subst h2
      rw [show (if ((k2, w) : String × Nat × List String).1 = k2 then
          ((k2, c + 1, fls ++ [file]) : String × Nat × List String) else (k2, w)) =
          (k2, c + 1, fls ++ [file]) from if_pos rfl]
      rw [lookupVal_cons, lookupVal_cons, if_neg hne, if_neg hne]
      exact ih
    · rw [show (if ((k2, w) : String × Nat × List String).1 = pkg then
          ((pkg, c + 1, fls ++ [file]) : String × Nat × List String) else (k2, w)) =
          (k2, w) from if_neg h2]
      rw [lookupVal_cons, lookupVal_cons]
      by_cases hp : k2 = p
      · rw [if_pos hp, if_pos hp]
      · rw [if_neg hp, if_neg hp]
        exact ih

/-- The in-place update of `bumpUsage` rebinds the bumped key to the
incremented count and extended file list. -/
theorem lookupVal_map_update_eq (usage : List (String × Nat × List String))
    (pkg : String) (c : Nat) (fls : List String) (file : String)
    (w : Nat × List String) (h : lookupVal pkg usage = some w) :
    lookupVal pkg (usage.map (fun kv =>
      if kv.1 = pkg then (pkg, c + 1, fls ++ [file]) else kv)) =
      some (c + 1, fls ++ [file]) := by
  induction usage with
  | nil => exact Option.noConfusion h
  | cons hd t ih =>
    obtain ⟨k2, w2⟩ := hd
    rw [List.map_cons]
    by_cases h2 : k2 = pkg
    · subst h2
      rw [show (if ((k2, w2) : String × Nat × List String).1 = k2 then
          ((k2, c + 1, fls ++ [file]) : String × Nat × List String) else (k2, w2)) =
          (k2, c + 1, fls ++ [file]) from if_pos rfl]
      rw [lookupVal_cons, if_pos rfl]
    · rw [show (if ((k2, w2) : String × Nat × List String).1 = pkg then
          ((pkg, c + 1, fls ++ [file]) : String × Nat × List String) else (k2, w2)) =
          (k2, w2) from if_neg h2]
      rw [lookupVal_cons] at h
      rw [if_neg h2] at h
      rw [lookupVal_cons, if_neg h2]
      exact ih h

/-- One `bumpUsage` step adds exactly one to the bumped package's
count and leaves every other count unchanged. -/
theorem countOf_bump (file : String) (usage : List (String × Nat × List String))
    (pkg p : String) :
    countOf (bumpUsage file usage pkg) p =
      countOf usage p + (if pkg = p then 1 else 0) := by
  unfold bumpUsage
  cases h : lookupVal pkg usage with
  | none =>
    unfold countOf
    rw [lookupVal_append]
    cases h2 : lookupVal p usage with
    | none =>
      by_cases hp : pkg = p <;> simp [hp]
    | some w =>
      have hne : pkg ≠ p := by
        intro he
        rw [he, h2] at h
        exact Option.noConfusion h
      simp [hne]
  | some cv =>
    by_cases hp : pkg = p
    · subst hp
      unfold countOf
      rw [lookupVal_map_update_eq usage pkg cv.1 cv.2 file cv h, h]
      simp
    · unfold countOf
      rw [lookupVal_map_update_ne usage pkg p hp]
      simp [hp]

/-- One `bumpUsage` step makes the bumped package present and leaves
every other package's presence unchanged. -/
theorem presentOf_bump (file : String) (usage : List (String × Nat × List String))
    (pkg p : String) :
    presentOf (bumpUsage file usage pkg) p = true ↔
      (presentOf usage p = true ∨ pkg = p) := by
  unfold bumpUsage
  cases h : lookupVal pkg usage with
  | none =>
    unfold presentOf
    rw [lookupVal_append]
    cases h2 : lookupVal p usage with
    | none => by_cases hp : pkg = p <;> simp [hp]
    | some w => simp
  | some cv =>
    by_cases hp : pkg = p
    · subst hp
      unfold presentOf
      rw [lookupVal_map_update_eq usage pkg cv.1 cv.2 file cv h]
      simp [h]
    · unfold presentOf
      rw [lookupVal_map_update_ne usage pkg p hp]
      simp [hp]

/-- Folding one file's import list adds that list's occurrence count
of every package to the usage index. -/
theorem countOf_foldl (file : String) (imports : List String) :
    ∀ (usage : List (String × Nat × List String)) (p : String),
    countOf (imports.foldl (bumpUsage file) usage) p =
      countOf usage p + occCount p imports := by
  induction imports with
  | nil => intro usage p; rfl
  | cons q t ih =>
    intro usage p
    show countOf (t.foldl (bumpUsage file) (bumpUsage file usage q)) p = _
    rw [ih, countOf_bump, Nat.add_assoc]
    rfl

/-- Folding one file's import list makes exactly the packages it
mentions present (in addition to those already present). -/
theorem presentOf_foldl (file : String) (imports : List String) :
    ∀ (usage : List (String × Nat × List String)) (p : String),
    presentOf (imports.foldl (bumpUsage file) usage) p = true ↔
      (presentOf usage p = true ∨ 0 < occCount p imports) := by
  induction imports with
  | nil => intro usage p; simp [occCount]
  | cons q t ih =>
    intro usage p
    show presentOf (t.foldl (bumpUsage file) (bumpUsage file usage q)) p = true ↔ _
    rw [ih, presentOf_bump]
    by_cases hq : q = p <;> simp [occCount, hq]

/-- The full usage fold computes, for every package, the total number
of times it occurs across all files' import lists. -/
theorem countOf_fold_all (m : List (String × List String)) :
    ∀ (usage : List (String × Nat × List String)) (p : String),
    countOf (m.foldl (fun usage fi => fi.2.foldl (bumpUsage fi.1) usage) usage) p =
      countOf usage p + totalCount p m := by
  induction m with
  | nil => intro usage p; rfl
  | cons fi t ih =>
    intro usage p
    show countOf (t.foldl _ (fi.2.foldl (bumpUsage fi.1) usage)) p = _
    rw [ih, countOf_foldl, Nat.add_assoc]
    rfl

/-- The count in the computed usage index is the total occurrence
count. -/
theorem countOf_computePackageUsage (m : List (String × List String)) (p : String) :
    countOf (computePackageUsage m) p = totalCount p m := by
  unfold computePackageUsage
  rw [countOf_fold_all]
  show 0 + totalCount p m = totalCount p m
  omega

/-- The full usage fold makes exactly the mentioned packages
present. -/
theorem presentOf_fold_all (m : List (String × List String)) :
    ∀ (usage : List (String × Nat × List String)) (p : String),
    presentOf (m.foldl (fun usage fi => fi.2.foldl (bumpUsage fi.1) usage) usage) p = true ↔
      (presentOf usage p = true ∨ 0 < totalCount p m) := by
  induction m with
  | nil => intro usage p; simp [totalCount]
  | cons fi t ih =>
    intro usage p
    show presentOf (t.foldl _ (fi.2.foldl (bumpUsage fi.1) usage)) p = true ↔ _
    rw [ih, presentOf_foldl]
    show _ ∨ 0 < totalCount p t ↔ _ ∨ 0 < occCount p fi.2 + totalCount p t
    constructor
    · rintro ((h | h) | h)
      · exact Or.inl h
      · exact Or.inr (by omega)
      · exact Or.inr (by omega)
    · rintro (h | h)
      · exact Or.inl (Or.inl h)
      · by_cases ho : 0 < occCount p fi.2
        · exact Or.inl (Or.inr ho)
        · exact Or.inr (by omega)

/-- A package is a key of the computed usage index exactly when some
file mentions it. -/
theorem presentOf_computePackageUsage (m : List (String × List String)) (p : String) :
    presentOf (computePackageUsage m) p = true ↔ 0 < totalCount p m := by
  unfold computePackageUsage
  rw [presentOf_fold_all]
  simp [presentOf, lookupVal]

/-- Total occurrence counts are invariant under permutation of the
file map. -/
theorem totalCount_perm (p : String) {m1 m2 : List (String × List String)}
    (h : m1.Perm m2) : totalCount p m1 = totalCount p m2 := by
  induction h with
  | nil => rfl
  | cons x h ih => simp [totalCount, ih]
  | swap x y l =>
    show occCount p y.2 + (occCount p x.2 + totalCount p l) =
      occCount p x.2 + (occCount p y.2 + totalCount p l)
    omega
  | trans h1 h2 ih1 ih2 => exact ih1.trans ih2

/-- Membership in the insertion-ordered set after one insertion. -/
theorem mem_insertUnique (l : List String) (x y : String) :
    y ∈ insertUnique l x ↔ y ∈ l ∨ y = x := by
  unfold insertUnique
  split
  · rename_i hx
    constructor
    · exact Or.inl
    · rintro (h | rfl)
      · exact h
      · exact hx
  · simp

/-- Membership after folding a whole import list into the set. -/
theorem mem_foldl_insertUnique (imports : List String) :
    ∀ (acc : List String) (y : String),
    y ∈ imports.foldl insertUnique acc ↔ y ∈ acc ∨ y ∈ imports := by
  induction imports with
  | nil => intro acc y; simp
  | cons q t ih =>
    intro acc y
    show y ∈ t.foldl insertUnique (insertUnique acc q) ↔ _
    rw [ih, mem_insertUnique]
    simp [or_assoc, eq_comm]

/-- A package occurs in a list exactly when its occurrence count is
positive. -/
theorem occCount_pos_iff (y : String) (l : List String) :
    0 < occCount y l ↔ y ∈ l := by
  induction l with
  | nil => simp [occCount]
  | cons q t ih =>
    by_cases h : q = y
    · subst h
      simp [occCount]
    · have h2 : ¬ y = q := fun he => h he.symm
      simp [occCount, h, h2, ih]

/-- The unique-package set contains exactly the packages some file
mentions. -/
theorem mem_extractUniquePackages (m : List (String × List String)) (y : String) :
    y ∈ extractUniquePackages m ↔ 0 < totalCount y m := by
  unfold extractUniquePackages
  suffices hgen : ∀ acc : List String,
      y ∈ m.foldl (fun acc kv => kv.2.foldl insertUnique acc) acc ↔
        y ∈ acc ∨ 0 < totalCount y m by
    rw [hgen []]
    simp
  induction m with
  | nil => intro acc; simp [totalCount]
  | cons fi t ih =>
    intro acc
    show y ∈ t.foldl _ (fi.2.foldl insertUnique acc) ↔ _
    rw [ih, mem_foldl_insertUnique]
    show (y ∈ acc ∨ y ∈ fi.2) ∨ 0 < totalCount y t ↔
      y ∈ acc ∨ 0 < occCount y fi.2 + totalCount y t
    rw [← occCount_pos_iff y fi.2]
    constructor
    · rintro ((h | h) | h)
      · exact Or.inl h
      · exact Or.inr (by omega)
      · exact Or.inr (by omega)
    · rintro (h | h)
      · exact Or.inl (Or.inl h)
      · by_cases ho : 0 < occCount y fi.2
        · exact Or.inl (Or.inr ho)
        · exact Or.inr (by omega)

/-- C8: usage aggregation is permutation-invariant in keys and counts
— for two file-to-packages maps that are permutations of each other,
the `packageUsage` fold has the same key set and the same per-package
count, and `extractUniquePackages` yields the same package set (only
the per-package file-list order may differ). -/
theorem aggregation_permutation_invariant (m1 m2 : List (String × List String))
    (h : m1.Perm m2) :
    (∀ p, (presentOf (computePackageUsage m1) p = true ↔
           presentOf (computePackageUsage m2) p = true))
    ∧ (∀ p, countOf (computePackageUsage m1) p = countOf (computePackageUsage m2) p)
    ∧ (∀ p, p ∈ extractUniquePackages m1 ↔ p ∈ extractUniquePackages m2) := by
  refine ⟨fun p => ?_, fun p => ?_, fun p => ?_⟩
  · rw [presentOf_computePackageUsage, presentOf_computePackageUsage,
      totalCount_perm p h]
  · rw [countOf_computePackageUsage, countOf_computePackageUsage,
      totalCount_perm p h]
  · rw [mem_extractUniquePackages, mem_extractUniquePackages, totalCount_perm p h]

/-- Witness for C8: the two-entry map and its swap agree on the count
of "react" and on membership of "vue". -/
theorem aggregation_permutation_invariant_witness :
    countOf (computePackageUsage aggMapA) "react" =
      countOf (computePackageUsage aggMapB) "react"
    ∧ ("vue" ∈ extractUniquePackages aggMapA ↔
       "vue" ∈ extractUniquePackages aggMapB) := by
  have h : aggMapA.Perm aggMapB := List.Perm.swap _ _ _
  exact ⟨(aggregation_permutation_invariant aggMapA aggMapB h).2.1 "react",
         (aggregation_permutation_invariant aggMapA aggMapB h).2.2 "vue"⟩

/-! ## Metadata-fetcher theorems (claims C2, C4) -/

/-- The enrichment pass over the result map rewrites exactly the
`alternatives` field of every binding. -/
theorem lookupVal_enrich : ∀ (l : List (String × PackageRecord)) (k : String),
    lookupVal k (l.map (fun entry =>
      (entry.1, { entry.2 with alternatives := some (assignAlternatives entry.1) }))) =
    (lookupVal k l).map (fun r => { r with alternatives := some (assignAlternatives k) })
  | [], _ => rfl
  | (k2, r) :: t, k => by
    by_cases h : k2 = k
    · subst h
      simp [List.map_cons, lookupVal_cons]
    · simp [List.map_cons, lookupVal_cons, h, lookupVal_enrich t k]

/-- Looking up a package in the fan-out's collected result gives
exactly its own independent fetch result. -/
theorem lookupVal_filterMap_fetchOne
    (reg : String → Except String (Nat × NpmData))
    (dl : String → Except String (Nat × Option Nat)) :
    ∀ (names : List String) (pkg : String),
    lookupVal pkg (names.filterMap (fun packageName =>
      (fetchOne reg dl packageName).map (fun record => (packageName, record)))) =
    (if pkg ∈ names then fetchOne reg dl pkg else none)
  | [], pkg => by simp [lookupVal]
  | n :: t, pkg => by
    by_cases hn : n = pkg
    · subst hn
      cases hf : fetchOne reg dl n with
      | none =>
        simp only [List.filterMap_cons, hf, Option.map_none']
        rw [lookupVal_filterMap_fetchOne reg dl t n]
        simp [hf]
      | some r =>
        simp [List.filterMap_cons, hf, lookupVal_cons]
    · have hn2 : ¬ pkg = n := fun he => hn he.symm
      cases hf : fetchOne reg dl n with
      | none =>
        simp only [List.filterMap_cons, hf, Option.map_none']
        rw [lookupVal_filterMap_fetchOne reg dl t pkg]
        simp [hn2]
      | some r =>
        simp only [List.filterMap_cons, hf, Option.map_some']
        rw [lookupVal_cons, if_neg hn]
        rw [lookupVal_filterMap_fetchOne reg dl t pkg]
        simp [hn2]

/-- C2: a package whose primary registry request throws is stored as a
degraded record carrying its name, the non-empty description
"Could not fetch package data", the empty version, the thrown error
text, and no `weeklyDownloads` field at all (so no downloads value of
any other package can reach it); the stored entry is independent of
the download-count oracle, i.e. no secondary request influences
it. -/
theorem fetch_failure_degraded_record (packageNames : List String)
    (reg : String → Except String (Nat × NpmData))
    (dl : String → Except String (Nat × Option Nat))
    (pkg e : String) (hmem : pkg ∈ packageNames)
    (hreg : reg pkg = Except.error e) :
    lookupVal pkg (fetchNpmMetadata packageNames reg dl) = some
      { name := pkg, description := "Could not fetch package data", version := "",
        license := none, homepage := none, repository := none, maintainers := none,
        lastPublished := none, dependencies := none, weeklyDownloads := none,
        error := some (errorString e),
        alternatives := some (assignAlternatives pkg) }
    ∧ "Could not fetch package data" ≠ ""
    ∧ (∀ dl2, lookupVal pkg (fetchNpmMetadata packageNames reg dl) =
        lookupVal pkg (fetchNpmMetadata packageNames reg dl2)) := by
  have key : ∀ (dlx : String → Except String (Nat × Option Nat)),
      lookupVal pkg (fetchNpmMetadata packageNames reg dlx) = some
      { name := pkg, description := "Could not fetch package data", version := "",
        license := none, homepage := none, repository := none, maintainers := none,
        lastPublished := none, dependencies := none, weeklyDownloads := none,
        error := some (errorString e),
        alternatives := some (assignAlternatives pkg) } := by
    intro dlx
    simp only [fetchNpmMetadata]
    rw [lookupVal_enrich, lookupVal_filterMap_fetchOne, if_pos hmem]
    unfold fetchOne
    rw [hreg]
    rfl
  exact ⟨key dl, by decide, fun dl2 => (key dl).trans (key dl2).symm⟩

/-- Witness for C2: the package "left-pad" under an always-throwing
registry oracle. -/
theorem fetch_failure_degraded_record_witness :
    lookupVal "left-pad" (fetchNpmMetadata ["left-pad"] regFail dlOk) = some
      { name := "left-pad", description := "Could not fetch package data",
        version := "", license := none, homepage := none, repository := none,
        maintainers := none, lastPublished := none, dependencies := none,
        weeklyDownloads := none, error := some "ECONNREFUSED",
        alternatives := some [] } :=
  (fetch_failure_degraded_record ["left-pad"] regFail dlOk "left-pad" "ECONNREFUSED"
    (List.mem_cons_self _ _) rfl).1

/-- C4: after all fetches complete, every entry of the result map —
degraded records included — carries an alternatives list equal to the
fixed lookup table's value for its name: `["date-fns", "dayjs",
"luxon"]` for "moment", and the empty list (never an absent field) for
any name outside the table. -/
theorem alternatives_enrichment_total (packageNames : List String)
    (reg : String → Except String (Nat × NpmData))
    (dl : String → Except String (Nat × Option Nat))
    (n : String) (r : PackageRecord)
    (hmem : (n, r) ∈ fetchNpmMetadata packageNames reg dl) :
    r.alternatives = some (assignAlternatives n)
    ∧ (n = "moment" → r.alternatives = some ["date-fns", "dayjs", "luxon"])
    ∧ (n ≠ "moment" → n ≠ "lodash" → n ≠ "underscore" → n ≠ "request" →
        n ≠ "jquery" → r.alternatives = some []) := by
  have halt : r.alternatives = some (assignAlternatives n) := by
    simp only [fetchNpmMetadata, List.mem_map] at hmem
    obtain ⟨entry, _, heq⟩ := hmem
    have h1 : entry.1 = n := congrArg Prod.fst heq
    have h2 : { entry.2 with alternatives := some (assignAlternatives entry.1) } = r :=
      congrArg Prod.snd heq
    rw [← h2, h1]
  refine ⟨halt, ?_, ?_⟩
  · intro hm
    rw [halt, hm]
    rfl
  · intro h1 h2 h3 h4 h5
    rw [halt]
    unfold assignAlternatives
    rw [if_neg h1,
      if_neg (show ¬ (n = "lodash" ∨ n = "underscore") from fun hc => hc.elim h2 h3),
      if_neg h4, if_neg h5]

/-- Witness for C4: the degraded record of "moment" under an
always-throwing registry still receives the full alternatives
list. -/
theorem alternatives_enrichment_total_witness :
    ("moment", degradedMoment) ∈ fetchNpmMetadata ["moment"] regFail dlFail
    ∧ degradedMoment.alternatives = some ["date-fns", "dayjs", "luxon"] := by
  have hmem : ("moment", degradedMoment) ∈
      fetchNpmMetadata ["moment"] regFail dlFail := by decide
  exact ⟨hmem,
    (alternatives_enrichment_total ["moment"] regFail dlFail "moment" _ hmem).2.1 rfl⟩

/-! ## Entry-point theorems (claim C10) -/

/-- Re-assigning any other key leaves a binding unchanged under
`setKey`'s in-place update map. -/
theorem lookupVal_map_setval_ne {β : Type} (m : List (String × β)) (k q : String)
    (hne : k ≠ q) (v : β) :
    lookupVal q (m.map (fun kv => if kv.1 = k then (k, v) else kv)) =
      lookupVal q m := by
  induction m with
  | nil => rfl
  | cons hd t ih =>
    obtain ⟨k2, w⟩ := hd
    rw [List.map_cons]
    by_cases h2 : k2 = k
    · subst h2
      rw [show (if ((k2, w) : String × β).1 = k2 then ((k2, v) : String × β)
          else (k2, w)) = (k2, v) from if_pos rfl]
      rw [lookupVal_cons, lookupVal_cons, if_neg hne, if_neg hne]
      exact ih
    · rw [show (if ((k2, w) : String × β).1 = k then ((k, v) : String × β)
          else (k2, w)) = (k2, w) from if_neg h2]
      rw [lookupVal_cons, lookupVal_cons]
      by_cases hp : k2 = q
      · rw [if_pos hp, if_pos hp]
      · rw [if_neg hp, if_neg hp]
        exact ih

/-- `setKey`'s in-place update map rebinds a present key to the new
value. -/
theorem lookupVal_map_setval_eq {β : Type} (m : List (String × β)) (k : String)
    (v w : β) (h : lookupVal k m = some w) :
    lookupVal k (m.map (fun kv => if kv.1 = k then (k, v) else kv)) = some v := by
  induction m with
  | nil => exact Option.noConfusion h
  | cons hd t ih =>
    obtain ⟨k2, w2⟩ := hd
    rw [List.map_cons]
    by_cases h2 : k2 = k
    · subst h2
      rw [show (if ((k2, w2) : String × β).1 = k2 then ((k2, v) : String × β)
          else (k2, w2)) = (k2, v) from if_pos rfl]
      rw [lookupVal_cons, if_pos rfl]
    · rw [show (if ((k2, w2) : String × β).1 = k then ((k, v) : String × β)
          else (k2, w2)) = (k2, w2) from if_neg h2]
      rw [lookupVal_cons] at h
      rw [if_neg h2] at h
      rw [lookupVal_cons, if_neg h2]
      exact ih h

/-- Lookup after a `setKey` assignment: the assigned key maps to the
new value, every other key is untouched. -/
theorem lookupVal_setKey (m : List (String × List String)) (k q : String)
    (v : List String) :
    lookupVal q (setKey m k v) = if k = q then some v else lookupVal q m := by
  unfold setKey
  cases hk : lookupVal k m with
  | none =>
    simp only [hk, Option.isNone_none, if_true]
    rw [lookupVal_append]
    cases h2 : lookupVal q m with
    | none => rfl
    | some w =>
      have hne : k ≠ q := by
        intro he
        rw [he, h2] at hk
        exact Option.noConfusion hk
      simp [hne]
  | some w =>
    simp only [hk, Option.isNone_some, Bool.false_eq_true, if_false]
    by_cases hq : k = q
    · subst hq
      rw [lookupVal_map_setval_eq m k v w hk, if_pos rfl]
    · rw [lookupVal_map_setval_ne m k q hq v, if_neg hq]

/-- Every entry after a `setKey` assignment is either an original
entry or the assigned pair. -/
theorem mem_setKey (m : List (String × List String)) (k q : String)
    (v imps : List String) (h : (q, imps) ∈ setKey m k v) :
    (q, imps) ∈ m ∨ (q = k ∧ imps = v) := by
  unfold setKey at h
  split at h
  · rcases List.mem_append.mp h with h1 | h1
    · exact Or.inl h1
    · simp at h1
      exact Or.inr ⟨h1.1, h1.2⟩
  · rcases List.mem_map.mp h with ⟨entry, hm, heq⟩
    by_cases he : entry.1 = k
    · rw [if_pos he] at heq
      cases heq
      exact Or.inr ⟨rfl, rfl⟩
    · rw [if_neg he] at heq
      rw [heq] at hm
      exact Or.inl hm

/-- A key with a binding appears in the key list. -/
theorem mem_keys_of_lookupVal {β : Type} (m : List (String × β)) (q : String)
    (h : (lookupVal q m).isSome = true) : q ∈ m.map Prod.fst := by
  induction m with
  | nil => exact Bool.noConfusion h
  | cons hd t ih =>
    obtain ⟨k2, w⟩ := hd
    rw [lookupVal_cons] at h
    by_cases hk : k2 = q
    · subst hk
      simp
    · rw [if_neg hk] at h
      simp [ih h]

/-- Every entry the selected-files loop collects comes from a selected
path and has a non-empty import list. -/
theorem buildSelectedImports_sound (fs : FileSystem) :
    ∀ (paths : List String) (acc result : List (String × List String)),
    buildSelectedImports fs paths acc = Except.ok result →
    ∀ q imps, (q, imps) ∈ result → (q, imps) ∈ acc ∨ (q ∈ paths ∧ imps ≠ [])
  | [], acc, result, h, q, imps, hm => by
    injection h with h
    subst h
    exact Or.inl hm
  | p :: rest, acc, result, h, q, imps, hm => by
    cases hr : fs.readFileSync p with
    | error e =>
      simp only [buildSelectedImports, hr] at h
      exact Except.noConfusion h
    | ok content =>
      simp only [buildSelectedImports, hr] at h
      split at h
      · rename_i hlen
        rcases buildSelectedImports_sound fs rest _ _ h q imps hm with h1 | h1
        · rcases mem_setKey _ _ _ _ _ h1 with h2 | ⟨h2, h3⟩
          · exact Or.inl h2
          · subst h2
            subst h3
            exact Or.inr ⟨List.mem_cons_self _ _, List.length_pos.mp hlen⟩
        · exact Or.inr ⟨List.mem_cons_of_mem _ h1.1, h1.2⟩
      · rcases buildSelectedImports_sound fs rest _ _ h q imps hm with h1 | h1
        · exact Or.inl h1
        · exact Or.inr ⟨List.mem_cons_of_mem _ h1.1, h1.2⟩

/-- The selected-files loop never drops a key it has already
collected. -/
theorem buildSelectedImports_keys (fs : FileSystem) :
    ∀ (paths : List String) (acc result : List (String × List String)),
    buildSelectedImports fs paths acc = Except.ok result →
    ∀ q, (lookupVal q acc).isSome = true → (lookupVal q result).isSome = true
  | [], acc, result, h, q, hq => by
    injection h with h
    subst h
    exact hq
  | p :: rest, acc, result, h, q, hq => by
    cases hr : fs.readFileSync p with
    | error e =>
      simp only [buildSelectedImports, hr] at h
      exact Except.noConfusion h
    | ok content =>
      simp only [buildSelectedImports, hr] at h
      split at h
      · refine buildSelectedImports_keys fs rest _ _ h q ?_
        rw [lookupVal_setKey]
        by_cases hp : p = q
        · rw [if_pos hp]
          rfl
        · rw [if_neg hp]
          exact hq
      · exact buildSelectedImports_keys fs rest _ _ h q hq

/-- Every selected path that reads successfully and extracts at least
one package ends up with a binding in the collected map. -/
theorem buildSelectedImports_complete (fs : FileSystem) :
    ∀ (paths : List String) (acc result : List (String × List String)),
    buildSelectedImports fs paths acc = Except.ok result →
    ∀ q content, q ∈ paths → fs.readFileSync q = Except.ok content →
      analyzeFileImports content ≠ [] → (lookupVal q result).isSome = true
  | [], _, _, _, q, content, hq, _, _ => absurd hq (List.not_mem_nil q)
  | p :: rest, acc, result, h, q, content, hq, hr, hne => by
    rcases List.mem_cons.mp hq with rfl | hq2
    · simp only [buildSelectedImports, hr] at h
      have hlen : (analyzeFileImports content).length > 0 := by
        cases hc : analyzeFileImports content with
        | nil => exact absurd hc hne
        | cons a l => simp [hc]
      rw [if_pos hlen] at h
      refine buildSelectedImports_keys fs rest _ _ h q ?_
      rw [lookupVal_setKey, if_pos rfl]
      rfl
    · cases hrp : fs.readFileSync p with
      | error e =>
        simp only [buildSelectedImports, hrp] at h
        exact Except.noConfusion h
      | ok c2 =>
        simp only [buildSelectedImports, hrp] at h
        split at h
        · exact buildSelectedImports_complete fs rest _ _ h q content hq2 hr hne
        · exact buildSelectedImports_complete fs rest _ _ h q content hq2 hr hne

/-- C10: in the analyze-selected-files entry point the
suggested-deep-dive list is exactly the key list of the collected
map of imports — every listed file comes from the selection and extracted
at least one package, every selected file that extracts at least one
package is listed, and no >3-packages threshold is applied; in the
analyze-current-file entry point every displayed analysis carries the
analyzed file as its whole suggested-deep-dive list, regardless of the
file's package count. -/
theorem entrypoint_suggested_lists :
    (∀ (fs : FileSystem) (paths : List String) (analysis : ProjectAnalysis),
      buildSelectedAnalysis fs paths = Except.ok analysis →
      analysis.suggestedAnalysis = analysis.packageImports.map Prod.fst
      ∧ (∀ q imps, (q, imps) ∈ analysis.packageImports → q ∈ paths ∧ imps ≠ [])
      ∧ (∀ q content, q ∈ paths → fs.readFileSync q = Except.ok content →
          analyzeFileImports content ≠ [] → q ∈ analysis.suggestedAnalysis))
    ∧ (∀ (fs : FileSystem) (filePath : String) (analysis : ProjectAnalysis),
      runAnalyzeCurrentFile fs filePath = CurrentFileOutcome.displayed analysis →
      analysis.suggestedAnalysis = [filePath]) := by
  constructor
  · intro fs paths analysis h
    cases hb : buildSelectedImports fs paths [] with
    | error e =>
      simp only [buildSelectedAnalysis, hb] at h
      exact Except.noConfusion h
    | ok pkgImports =>
      simp only [buildSelectedAnalysis, hb] at h
      injection h with h
      subst h
      refine ⟨rfl, ?_, ?_⟩
      · intro q imps hm
        rcases buildSelectedImports_sound fs paths [] pkgImports hb q imps hm with h1 | h1
        · exact absurd h1 (List.not_mem_nil _)
        · exact h1
      · intro q content hq hr hne
        exact mem_keys_of_lookupVal _ _
          (buildSelectedImports_complete fs paths [] pkgImports hb q content hq hr hne)
  · intro fs filePath analysis h
    unfold runAnalyzeCurrentFile at h
    split at h
    · exact CurrentFileOutcome.noConfusion h
    · cases hr : fs.readFileSync filePath with
      | error e =>
        rw [hr] at h
        exact CurrentFileOutcome.noConfusion h
      | ok content =>
        rw [hr] at h
        simp only [] at h
        split at h
        · exact CurrentFileOutcome.noConfusion h
        · injection h with h
          subst h
          rfl

/-- Witness for C10: the selected file `/a.ts` (one package) appears
in the selected-files suggested list, and the current-file analysis of
`/b.ts` (one package) has exactly `[/b.ts]` as its suggested list. -/
theorem entrypoint_suggested_lists_witness :
    "/a.ts" ∈ (ProjectAnalysis.mk [] [("/a.ts", ["react"])] ["/a.ts"]).suggestedAnalysis
    ∧ (ProjectAnalysis.mk [] [("/b.ts", ["vue"])] ["/b.ts"]).suggestedAnalysis =
      ["/b.ts"] := by
  constructor
  · exact (entrypoint_suggested_lists.1 fsEntry ["/a.ts"]
      (ProjectAnalysis.mk [] [("/a.ts", ["react"])] ["/a.ts"]) rfl).2.2
      "/a.ts" "require(\"react\")" (List.mem_cons_self _ _) rfl (by decide)
  · exact entrypoint_suggested_lists.2 fsEntry "/b.ts"
      (ProjectAnalysis.mk [] [("/b.ts", ["vue"])] ["/b.ts"]) rfl
